import Mathlib

/-!
Verification of the book-service backend: a shallow embedding of the
Express/Mongoose controllers (routes/bookRoutes.js, the book controller,
model/bookModel.js) and of the auth middleware and aggregation examples
documented in backend.md, together with theorems settling the frozen
claims about the natural-language specification.

Conventions of the embedding:
- MongoDB ObjectId values are modelled as Nat; document collections as
  lists in natural storage order.
- JavaScript strings handled only by equality are Lean String; the
  Authorization header, which the middleware slices and splits, is a
  List Char so that split/prefix reasoning is by list induction.
- Fallible operations return Except or an explicit response type.
-/

/-- A user document. The User model is not under src (only the Book model
is); its fields are modelled from the spec: an identity record with a
name, a unique username and a unique email (the hashed password plays no
role in any claim and is omitted). The book lookup joins on the user id
and projects the name. -/
structure User where
  id : Nat
  name : String
  username : String
  email : String
  deriving DecidableEq

/-- A book document, from model/bookModel.js: a required name and a
required createdBy reference to a User id. The server-assigned id is
explicit; timestamps play no role in any claim and are omitted. -/
structure Book where
  id : Nat
  name : String
  createdBy : Nat
  deriving DecidableEq

/-- The document store: the books collection and the users collection. -/
structure Store where
  books : List Book
  users : List User
  deriving DecidableEq

/-! ## The listBook aggregation pipeline (controller listBook)

The controller runs
Book.aggregate with three stages: a lookup from the users collection
matching localField createdBy against foreignField id with an inner
projection keeping name, then a match on the joined name path against the
name query parameter, then a set replacing the joined array by its first
element. -/

/-- A joined user after the lookup's inner projection. The inclusion
projection on name keeps the mandatory id field alongside name, per
MongoDB projection semantics. -/
structure JoinedUser where
  id : Nat
  name : String
  deriving DecidableEq

/-- A book document after the lookup stage: createdBy has been replaced
by the ordered list of joined (projected) users. -/
structure LookedUpBook where
  id : Nat
  name : String
  createdBy : List JoinedUser
  deriving DecidableEq

/-- A book document after the set stage collapsed the joined list to its
first element: none when the joined list was empty, since the first
aggregation operator on an empty array yields a missing field. -/
structure BookView where
  id : Nat
  name : String
  createdBy : Option JoinedUser
  deriving DecidableEq

/-- The lookup stage of listBook: for every book, gather all users whose
id equals the book's createdBy reference, each projected to id and name. -/
def lookupStage (users : List User) (books : List Book) : List LookedUpBook :=
  books.map fun b =>
    { id := b.id
      name := b.name
      createdBy := (users.filter fun u => u.id = b.createdBy).map fun u =>
        { id := u.id, name := u.name } }

/-- MongoDB equality match of the joined name path against the query
value. The query value is an Option: the name query parameter may be
absent, in which case the uncast pipeline carries undefined, which the
BSON serializer turns into null. A string value matches when some element
of the joined array has that name; null matches when the path is missing,
i.e. (as every joined user carries a name) when the joined array is
empty. -/
def matchNameValue : Option String → List JoinedUser → Bool
  | some v, arr => arr.any fun u => u.name = v
  | none, arr => arr.isEmpty

/-- The match stage of listBook: keep the documents whose joined name
path matches the query value. -/
def matchStage (q : Option String) (docs : List LookedUpBook) : List LookedUpBook :=
  docs.filter fun d => matchNameValue q d.createdBy

/-- The set stage of listBook: replace the joined array by its first
element, absent when the array is empty. -/
def setFirstStage (docs : List LookedUpBook) : List BookView :=
  docs.map fun d => { id := d.id, name := d.name, createdBy := d.createdBy.head? }

/-- The listBook controller's aggregation: lookup, then match on the
(possibly absent) name query parameter, then collapse. -/
def listBook (store : Store) (q : Option String) : List BookView :=
  setFirstStage (matchStage q (lookupStage store.users store.books))

/-- The pipeline with the filter stage removed: lookup then collapse
only. Stated from the spec's words for comparison with listBook when the
filter value is absent. -/
def listBookNoFilter (store : Store) : List BookView :=
  setFirstStage (lookupStage store.users store.books)

/-! Spec-side stage descriptions, following the claim's words, to be
compared with the composed pipeline of the source. -/

/-- Join stage as the claim words it: for every book document, look up
all user documents whose id matches the book's createdBy reference and
project the joined users to their name (with the mandatory id). -/
def joinStageSpec (store : Store) : List LookedUpBook :=
  store.books.map fun b =>
    { id := b.id
      name := b.name
      createdBy := (store.users.filter fun u => u.id = b.createdBy).map fun u =>
        { id := u.id, name := u.name } }

/-- Filter stage as the claim words it: keep only books where some joined
user's name equals the supplied filter value, by exact case-sensitive
string equality. -/
def filterStageSpec (v : String) (docs : List LookedUpBook) : List LookedUpBook :=
  docs.filter fun d => decide (∃ u ∈ d.createdBy, u.name = v)

/-- Collapse stage as the claim words it: replace the joined user
sequence with its first element, absent if the sequence is empty. -/
def collapseStageSpec (docs : List LookedUpBook) : List BookView :=
  docs.map fun d => { id := d.id, name := d.name, createdBy := d.createdBy.head? }

/-! ## Aggregation group, sort and limit stages (backend.md)

backend.md documents the group stage keyed on price with summed quantity
and a document count, the sort stage ordering by a field, and the limit
stage taking a prefix. -/

/-- A sample document with an id, a price and a quantity, as in the
aggregation examples of backend.md. -/
structure SaleDoc where
  id : Nat
  price : Nat
  quantity : Nat
  deriving DecidableEq

/-- An output group of the group stage keyed on price: the key, the
summed quantity, and the count of documents in the group. -/
structure PriceGroup where
  key : Nat
  totalQuantity : Nat
  count : Nat
  deriving DecidableEq

/-- The distinct keys of a list in order of first occurrence. -/
def firstKeys : List Nat → List Nat
  | [] => []
  | p :: rest => p :: (firstKeys rest).filter fun q => q ≠ p

/-- The group stage documented in backend.md: group documents by price,
sum the quantities of each group and count its documents. -/
def groupByPrice (docs : List SaleDoc) : List PriceGroup :=
  (firstKeys (docs.map fun d => d.price)).map fun p =>
    { key := p
      totalQuantity := ((docs.filter fun d => d.price = p).map fun d => d.quantity).sum
      count := (docs.filter fun d => d.price = p).length }

/-- Insert a group into a list sorted by descending totalQuantity. -/
def insertDesc (g : PriceGroup) : List PriceGroup → List PriceGroup
  | [] => [g]
  | h :: t => if h.totalQuantity < g.totalQuantity then g :: h :: t else h :: insertDesc g t

/-- The sort stage ordering groups by totalQuantity in descending
order. -/
def sortDescByTotal : List PriceGroup → List PriceGroup
  | [] => []
  | g :: t => insertDesc g (sortDescByTotal t)

/-- The limit stage: restrict the output to the first n documents. -/
def limitStage (n : Nat) (l : List PriceGroup) : List PriceGroup :=
  l.take n

/-- The three input documents named by the claim. -/
def sampleDocs : List SaleDoc :=
  [{ id := 1, price := 10, quantity := 5 },
   { id := 2, price := 10, quantity := 8 },
   { id := 3, price := 20, quantity := 2 }]

/-- Bridging lemma: the boolean any used by the source-side match stage
agrees with the decidable existential used by the spec-side filter
description. -/
theorem any_name_eq (arr : List JoinedUser) (v : String) :
    (arr.any fun u => u.name = v) = decide (∃ u ∈ arr, u.name = v) := by
  induction arr with
  | nil => simp
  | cons a l ih =>
    by_cases h : a.name = v
    · simp [List.any_cons, h]
    · simp [List.any_cons, h, ih]

/-- C1: listBook executes exactly the three-stage pipeline in fixed
order: the join stage, then the exact-match case-sensitive filter stage
on the joined user's name, then the collapse stage replacing the joined
sequence with its first element. -/
theorem listBook_three_stage_pipeline (store : Store) (v : String) :
    listBook store (some v) =
      collapseStageSpec (filterStageSpec v (joinStageSpec store)) := by
  unfold listBook collapseStageSpec filterStageSpec joinStageSpec
  unfold setFirstStage matchStage lookupStage
  congr 1
  apply List.filter_congr
  intro d _
  simpa [matchNameValue] using any_name_eq d.createdBy v

/-- A concrete store exhibiting the behaviour of the absent filter
value: one user named alice and one book referencing her. -/
def exStoreC2 : Store :=
  { books := [{ id := 10, name := "b1", createdBy := 1 }]
    users := [{ id := 1, name := "alice", username := "al", email := "a at x" }] }

/-- C2 counterexample: with the filter value absent, listBook is not the
pipeline with the filter stage removed: on a store with one book whose
creator resolves to a named user, listBook returns the empty list while
the filterless pipeline returns the book. -/
theorem listBook_absent_filter_counterexample :
    listBook exStoreC2 none = [] ∧
    listBookNoFilter exStoreC2 =
      [{ id := 10, name := "b1", createdBy := some { id := 1, name := "alice" } }] ∧
    listBook exStoreC2 none ≠ listBookNoFilter exStoreC2 := by
  refine ⟨by decide, by decide, by decide⟩

/-- C2 amended: when the name query parameter is absent, the match stage
compares the joined name path against null (undefined is serialized as
null in the uncast pipeline), so listBook returns exactly the books whose
joined user sequence is empty, each with the collapsed relation absent —
not the output of the pipeline with the filter stage removed. -/
theorem listBook_absent_filter_matches_null (store : Store) :
    listBook store none =
      setFirstStage ((lookupStage store.users store.books).filter
        fun d => d.createdBy.isEmpty) ∧
    (listBook store none).all (fun r => r.createdBy.isNone) = true := by
  constructor
  · rfl
  · unfold listBook setFirstStage matchStage
    simp only [List.all_eq_true]
    intro d hd
    rcases List.mem_map.mp hd with ⟨e, he, rfl⟩
    rcases List.mem_filter.mp he with ⟨_, hm⟩
    simp only [matchNameValue] at hm
    cases h : e.createdBy with
    | nil => simp
    | cons a l => rw [h] at hm; simp at hm

/-! ## The auth middleware (backend.md, middlewares/authMiddleware.js)

The middleware reads the Authorization header; if it is absent or does
not start with the literal prefix of the Bearer scheme it answers 401;
otherwise it takes the second space-separated chunk of the header as the
token and verifies it, answering 400 on verification failure and
attaching the decoded claims on success. Token verification is an
external collaborator and is a parameter of the embedding; the middleware
makes no data-store access, which the embedding reflects by taking no
store argument at all. -/

/-- The decoded claims of a verified token, as signed by the login route
of backend.md: the subject's user id and email. -/
structure Claims where
  id : Nat
  email : String
  deriving DecidableEq

/-- Outcome of the auth middleware: a 401 rejection, a 400 rejection, or
success with the decoded claims attached to the request context. -/
inductive AuthResult where
  | unauthenticated
  | invalidCredential
  | authed (user : Claims)
  deriving DecidableEq

/-- The error status the middleware responds with: 401 for a missing or
malformed credential, 400 for a failed verification, none on success
(control passes to the next handler). -/
def errorStatus : AuthResult → Option Nat
  | .unauthenticated => some 401
  | .invalidCredential => some 400
  | .authed _ => none

/-- The characters of the literal Bearer scheme prefix, capital B and a
single trailing space. -/
def bearerChars : List Char := ['B', 'e', 'a', 'r', 'e', 'r', ' ']

/-- JavaScript String.split with a single-character separator, on char
lists: splits into the (possibly empty) chunks between separator
occurrences. -/
def jsSplit (sep : Char) : List Char → List (List Char)
  | [] => [[]]
  | c :: cs =>
    if c = sep then [] :: jsSplit sep cs
    else
      match jsSplit sep cs with
      | [] => [[c]]
      | w :: ws => (c :: w) :: ws

/-- The token the middleware extracts: the element at index 1 of the
header split on spaces (the source's split-then-index). After the prefix
check the header contains a space, so index 1 always exists; the default
empty chunk is never reached there. -/
def tokenOf (h : List Char) : List Char :=
  (jsSplit ' ' h).getD 1 []

/-- The auth middleware. A missing header, or one that does not start
with the Bearer prefix (which also covers the empty header, falsy in the
source), is rejected as unauthenticated; otherwise the extracted token is
verified and the middleware either attaches the decoded claims or rejects
the credential as invalid. -/
def authMiddleware (verify : List Char → Option Claims) :
    Option (List Char) → AuthResult
  | none => .unauthenticated
  | some h =>
    if bearerChars.isPrefixOf h then
      match verify (tokenOf h) with
      | some u => .authed u
      | none => .invalidCredential
    else .unauthenticated

/-- C3: authenticate has exactly three outcomes. A missing header or one
without the Bearer prefix yields unauthenticated with status 401, for
every verifier (so nothing is verified); a header with the prefix whose
extracted token fails verification yields invalidCredential with status
400; one whose token verifies yields success with the decoded claims
attached. The middleware takes no store, so the data store is never
touched. -/
theorem authenticate_three_outcomes (verify : List Char → Option Claims)
    (hdr : Option (List Char)) :
    ((hdr = none ∨ ∃ h, hdr = some h ∧ bearerChars.isPrefixOf h = false) →
      (∀ v2, authMiddleware v2 hdr = .unauthenticated) ∧
      errorStatus (authMiddleware verify hdr) = some 401) ∧
    (∀ h, hdr = some h → bearerChars.isPrefixOf h = true →
      verify (tokenOf h) = none →
      authMiddleware verify hdr = .invalidCredential ∧
      errorStatus (authMiddleware verify hdr) = some 400) ∧
    (∀ h u, hdr = some h → bearerChars.isPrefixOf h = true →
      verify (tokenOf h) = some u →
      authMiddleware verify hdr = .authed u) := by
  refine ⟨?_, ?_, ?_⟩
  · rintro (rfl | ⟨h, rfl, hpre⟩)
    · exact ⟨fun v2 => rfl, rfl⟩
    · constructor
      · intro v2
        simp [authMiddleware, hpre]
      · simp [authMiddleware, hpre, errorStatus]
  · rintro h rfl hpre hv
    constructor
    · simp [authMiddleware, hpre, hv]
    · simp [authMiddleware, hpre, hv, errorStatus]
  · rintro h u rfl hpre hv
    simp [authMiddleware, hpre, hv]

/-- A concrete verifier for the witness: accepts exactly the token tk
and decodes it to user 7. -/
def verifyC3 : List Char → Option Claims :=
  fun t => if t = ['t', 'k'] then some { id := 7, email := "u at x" } else none

/-- Witness for C3 at concrete headers: a header without the prefix is
unauthenticated with 401, a Bearer header with a wrong token is an
invalid credential with 400, and a Bearer header with the accepted token
attaches the decoded claims. -/
theorem authenticate_three_outcomes_witness :
    (authMiddleware verifyC3 (some ['X']) = .unauthenticated ∧
      errorStatus (authMiddleware verifyC3 (some ['X'])) = some 401) ∧
    (authMiddleware verifyC3
        (some ['B', 'e', 'a', 'r', 'e', 'r', ' ', 'z']) = .invalidCredential ∧
      errorStatus (authMiddleware verifyC3
        (some ['B', 'e', 'a', 'r', 'e', 'r', ' ', 'z'])) = some 400) ∧
    authMiddleware verifyC3
        (some ['B', 'e', 'a', 'r', 'e', 'r', ' ', 't', 'k']) =
      .authed { id := 7, email := "u at x" } := by
  refine ⟨?_, ?_, ?_⟩
  · have h := (authenticate_three_outcomes verifyC3 (some ['X'])).1
      (Or.inr ⟨['X'], rfl, by decide⟩)
    exact ⟨h.1 verifyC3, h.2⟩
  · exact (authenticate_three_outcomes verifyC3
      (some ['B', 'e', 'a', 'r', 'e', 'r', ' ', 'z'])).2.1
      ['B', 'e', 'a', 'r', 'e', 'r', ' ', 'z'] rfl (by decide) (by decide)
  · exact (authenticate_three_outcomes verifyC3
      (some ['B', 'e', 'a', 'r', 'e', 'r', ' ', 't', 'k'])).2.2
      ['B', 'e', 'a', 'r', 'e', 'r', ' ', 't', 'k'] { id := 7, email := "u at x" }
      rfl (by decide) (by decide)

/-- jsSplit never produces the empty list of chunks. -/
theorem jsSplit_ne_nil (sep : Char) (l : List Char) : jsSplit sep l ≠ [] := by
  cases l with
  | nil => simp [jsSplit]
  | cons c cs =>
    by_cases hc : c = sep
    · simp [jsSplit, hc]
    · cases h : jsSplit sep cs <;> simp [jsSplit, hc, h]

/-- A list without the separator splits into the single chunk that is the
whole list. -/
theorem jsSplit_no_sep (sep : Char) (l : List Char) (h : sep ∉ l) :
    jsSplit sep l = [l] := by
  induction l with
  | nil => rfl
  | cons c cs ih =>
    have h1 : ¬ c = sep := fun hc => h (by rw [hc]; exact List.mem_cons_self _ _)
    have h2 : sep ∉ cs := fun hm => h (List.mem_cons_of_mem _ hm)
    simp [jsSplit, h1, ih h2]

/-- Splitting a header of the form Bearer-prefix plus remainder on spaces
yields the chunk of the six scheme letters followed by the split of the
remainder. -/
theorem jsSplit_bearer (rest : List Char) :
    jsSplit ' ' (bearerChars ++ rest) =
      ['B', 'e', 'a', 'r', 'e', 'r'] :: jsSplit ' ' rest := by
  cases h : jsSplit ' ' rest with
  | nil => exact absurd h (jsSplit_ne_nil ' ' rest)
  | cons w ws => simp [bearerChars, jsSplit, h]

/-- The substring of the header after the Bearer prefix. -/
def afterBearer (h : List Char) : List Char :=
  h.drop 7

/-- A verifier that accepts exactly the substring after the prefix of the
C4 counterexample header, decoding it to user 9. -/
def verifyC4 : List Char → Option Claims :=
  fun t => if t = ['a', ' ', 'b'] then some { id := 9, email := "v at x" } else none

/-- The C4 counterexample header: the Bearer prefix followed by a
remainder containing a space. -/
def exHeaderC4 : List Char :=
  ['B', 'e', 'a', 'r', 'e', 'r', ' ', 'a', ' ', 'b']

/-- C4 counterexample: on a header passing the prefix check whose
remainder contains a space, the token the middleware extracts is the
second space-separated chunk, not the substring after the prefix, and a
verifier that accepts exactly that substring is answered with
invalidCredential. -/
theorem token_split_counterexample :
    bearerChars.isPrefixOf exHeaderC4 = true ∧
    afterBearer exHeaderC4 = ['a', ' ', 'b'] ∧
    tokenOf exHeaderC4 = ['a'] ∧
    tokenOf exHeaderC4 ≠ afterBearer exHeaderC4 ∧
    authMiddleware verifyC4 (some exHeaderC4) = .invalidCredential := by
  decide

/-- C4 amended: the verified token is the second space-separated chunk
of the header; on every header passing the prefix check whose remainder
after the prefix contains no space, this chunk is exactly the substring
after the Bearer prefix. -/
theorem token_is_second_chunk (h rest : List Char)
    (heq : h = bearerChars ++ rest) (hns : ' ' ∉ rest) :
    bearerChars.isPrefixOf h = true ∧
    tokenOf h = (jsSplit ' ' h).getD 1 [] ∧
    tokenOf h = rest ∧
    afterBearer h = rest := by
  subst heq
  refine ⟨?_, rfl, ?_, ?_⟩
  · rw [List.isPrefixOf_iff_prefix]
    exact List.prefix_append _ _
  · unfold tokenOf
    rw [jsSplit_bearer, jsSplit_no_sep ' ' rest hns]
    rfl
  · have hlen : bearerChars.length = 7 := rfl
    unfold afterBearer
    rw [← hlen, List.drop_left]

/-- Witness for C4 amended at a concrete space-free token. -/
theorem token_is_second_chunk_witness :
    bearerChars.isPrefixOf ['B', 'e', 'a', 'r', 'e', 'r', ' ', 't', 'k'] = true ∧
    tokenOf ['B', 'e', 'a', 'r', 'e', 'r', ' ', 't', 'k'] =
      (jsSplit ' ' ['B', 'e', 'a', 'r', 'e', 'r', ' ', 't', 'k']).getD 1 [] ∧
    tokenOf ['B', 'e', 'a', 'r', 'e', 'r', ' ', 't', 'k'] = ['t', 'k'] ∧
    afterBearer ['B', 'e', 'a', 'r', 'e', 'r', ' ', 't', 'k'] = ['t', 'k'] :=
  token_is_second_chunk ['B', 'e', 'a', 'r', 'e', 'r', ' ', 't', 'k'] ['t', 'k']
    (by decide) (by decide)

/-! ## The book controllers (create, delete, update, read-one)

Request bodies are modelled with optional name and createdBy fields (a
JavaScript body may omit either) plus an opaque bag of any other payload
fields. -/

/-- A request body on the book routes: the optional name and createdBy
fields the controller destructures and a list of whatever other fields
the payload carried. -/
structure ReqBody where
  name : Option String
  createdBy : Option Nat
  extra : List (String × String)
  deriving DecidableEq

/-- Generic controller response: a 200 with the body, or a 404 with the
message Book not found. -/
inductive HttpResp (α : Type) where
  | ok (body : α)
  | notFound
  deriving DecidableEq

/-- The addBook controller: destructure name and createdBy from the
body, then create the document. Creation validates the schema of
model/bookModel.js (name and createdBy both required) and inserts the
document with the server-assigned id, appending it to the collection; a
missing required field is a validation error answered with 400. -/
def addBook (store : Store) (nextId : Nat) (body : ReqBody) :
    Except String Book × Store :=
  match body.name, body.createdBy with
  | some n, some c =>
    let doc : Book := { id := nextId, name := n, createdBy := c }
    (.ok doc, { store with books := store.books ++ [doc] })
  | _, _ => (.error "validation failed", store)

/-- The pre-validation hook middle on the book-creation path: a body
whose name is exactly the literal book1 throws, and the error is passed
to the error handler; any other body proceeds. -/
def middle (body : ReqBody) : Except String Unit :=
  if body.name = some "book1" then .error "invalid request" else .ok ()

instance : DecidableEq (Except String Book) := fun a b =>
  match a, b with
  | .ok x, .ok y => if h : x = y then .isTrue (by simp [h]) else .isFalse (by simp [h])
  | .error x, .error y =>
    if h : x = y then .isTrue (by simp [h]) else .isFalse (by simp [h])
  | .ok _, .error _ => .isFalse (by simp)
  | .error _, .ok _ => .isFalse (by simp)

/-- Outcome of POST books add: rejected by the pre-validation hook, or
handed to the create controller. -/
inductive AddOutcome where
  | rejected (msg : String)
  | created (result : Except String Book × Store)
  deriving DecidableEq

/-- The POST books add route: the middle hook runs first; only when it
passes does control reach addBook. -/
def postBooksAdd (store : Store) (nextId : Nat) (body : ReqBody) : AddOutcome :=
  match middle body with
  | .error e => .rejected e
  | .ok _ => .created (addBook store nextId body)

/-- Mongoose deleteOne on the books collection: remove the first
document whose id matches, returning the deleted count (0 or 1) and the
remaining collection. -/
def deleteOneBook (books : List Book) (bookId : Nat) : Nat × List Book :=
  match books with
  | [] => (0, [])
  | b :: rest =>
    if b.id = bookId then (1, rest)
    else
      let r := deleteOneBook rest bookId
      (r.1, b :: r.2)

/-- The deleteBook controller: run deleteOne on the path id and answer
200 with the deleted count, whatever that count is. The pair returned is
the status with the count, and the post-state. -/
def deleteBook (store : Store) (bookId : Nat) : (Nat × Nat) × Store :=
  let r := deleteOneBook store.books bookId
  ((200, r.1), { store with books := r.2 })

/-- A partial update payload: the fields of the body, each optional. -/
structure UpdateData where
  name : Option String
  createdBy : Option Nat
  deriving DecidableEq

/-- Apply a partial field replacement to a book document. -/
def applyUpdate (b : Book) (u : UpdateData) : Book :=
  { b with name := u.name.getD b.name, createdBy := u.createdBy.getD b.createdBy }

/-- Mongoose findByIdAndUpdate: update the first document whose id
matches and return it post-update (the new document), or none when the
id resolves to no document. -/
def updateById (books : List Book) (bookId : Nat) (u : UpdateData) :
    Option Book × List Book :=
  match books with
  | [] => (none, [])
  | b :: rest =>
    if b.id = bookId then (some (applyUpdate b u), applyUpdate b u :: rest)
    else
      let r := updateById rest bookId u
      (r.1, b :: r.2)

/-- The updateBook controller: findByIdAndUpdate on the path id; a
resolved id answers 200 with the updated document, an unresolved id
answers 404 and leaves the store unchanged. -/
def updateBook (store : Store) (bookId : Nat) (u : UpdateData) :
    HttpResp Book × Store :=
  match updateById store.books bookId u with
  | (some b, books2) => (.ok b, { store with books := books2 })
  | (none, _) => (.notFound, store)

/-- A populated creator after populate with select name: the referenced
user's id and name. -/
structure PopulatedUser where
  id : Nat
  name : String
  deriving DecidableEq

/-- The document shape answered by the read-one path: select minus name
excludes the book's own name, and populate replaces the createdBy
reference by the referenced user projected to id and name (none when the
reference resolves to no user). -/
structure BookNoName where
  id : Nat
  createdBy : Option PopulatedUser
  deriving DecidableEq

/-- The updateOnlyOneBook controller, bound to GET books by path
parameter: findOne on the name field equal to the path parameter (not on
the id), populate createdBy with select name, select minus name; an
unmatched name answers 404. The controller reads only; the store is
untouched. -/
def updateOnlyOneBook (store : Store) (bookId : String) : HttpResp BookNoName :=
  match store.books.find? (fun b => b.name = bookId) with
  | none => .notFound
  | some b =>
    .ok { id := b.id
          createdBy := (store.users.find? (fun u => u.id = b.createdBy)).map
            fun u => { id := u.id, name := u.name } }

/-- deleteOne on a collection without the id deletes nothing and leaves
the collection unchanged. -/
theorem deleteOneBook_not_mem (books : List Book) (bid : Nat)
    (h : ∀ b ∈ books, b.id ≠ bid) : deleteOneBook books bid = (0, books) := by
  induction books with
  | nil => rfl
  | cons b rest ih =>
    have hb : ¬ b.id = bid := h b (List.mem_cons_self _ _)
    have hr := ih fun x hx => h x (List.mem_cons_of_mem _ hx)
    simp [deleteOneBook, hb, hr]

/-- deleteOne on a collection containing the id reports count 1. -/
theorem deleteOneBook_mem (books : List Book) (bid : Nat)
    (h : ∃ b ∈ books, b.id = bid) : (deleteOneBook books bid).1 = 1 := by
  induction books with
  | nil => simp at h
  | cons b rest ih =>
    by_cases hb : b.id = bid
    · simp [deleteOneBook, hb]
    · rcases h with ⟨x, hx, hxid⟩
      rcases List.mem_cons.mp hx with rfl | hx2
      · exact absurd hxid hb
      · simp [deleteOneBook, hb, ih ⟨x, hx2, hxid⟩]

/-- With pairwise-distinct ids, deleteOne leaves no document carrying the
deleted id. -/
theorem deleteOneBook_removes (books : List Book) (bid : Nat)
    (hnodup : (books.map Book.id).Nodup) :
    ∀ b ∈ (deleteOneBook books bid).2, b.id ≠ bid := by
  induction books with
  | nil => simp [deleteOneBook]
  | cons b rest ih =>
    rw [List.map_cons, List.nodup_cons] at hnodup
    by_cases hb : b.id = bid
    · have hred : deleteOneBook (b :: rest) bid = (1, rest) := by
        simp [deleteOneBook, hb]
      rw [hred]
      intro x hx hxid
      have hm : x.id ∈ List.map Book.id rest := List.mem_map_of_mem _ hx
      rw [hxid, ← hb] at hm
      exact hnodup.1 hm
    · simp only [deleteOneBook, if_neg hb]
      intro x hx
      rcases List.mem_cons.mp hx with rfl | hx2
      · exact hb
      · exact ih hnodup.2 x hx2

/-- findByIdAndUpdate on a collection without the id updates nothing and
leaves the collection unchanged. -/
theorem updateById_not_mem (books : List Book) (bid : Nat) (u : UpdateData)
    (h : ∀ b ∈ books, b.id ≠ bid) : updateById books bid u = (none, books) := by
  induction books with
  | nil => rfl
  | cons b rest ih =>
    have hb : ¬ b.id = bid := h b (List.mem_cons_self _ _)
    have hr := ih fun x hx => h x (List.mem_cons_of_mem _ hx)
    simp [updateById, hb, hr]

/-- find? on a decomposition whose front contains no match and whose
pivot matches returns the pivot: the first matching element. -/
theorem find?_first (p : Book → Bool) (l1 l2 : List Book) (b : Book)
    (hb : p b = true) (hl1 : ∀ x ∈ l1, p x = false) :
    (l1 ++ b :: l2).find? p = some b := by
  induction l1 with
  | nil => simp [List.find?, hb]
  | cons a t ih =>
    have ha : p a = false := hl1 a (List.mem_cons_self _ _)
    simp only [List.cons_append, List.find?, ha]
    exact ih fun x hx => hl1 x (List.mem_cons_of_mem _ hx)

/-- C5: the pre-validation hook on the book-creation path rejects with an
error every request whose body name is exactly the literal book1, and for
every other name value control proceeds to the create operation. -/
theorem bookCreate_sentinel_hook (store : Store) (nid : Nat) (body : ReqBody) :
    (body.name = some "book1" →
      postBooksAdd store nid body = .rejected "invalid request") ∧
    (body.name ≠ some "book1" →
      postBooksAdd store nid body = .created (addBook store nid body)) := by
  constructor <;> intro h <;> simp [postBooksAdd, middle, h]

/-- Witness for C5: the sentinel body is rejected, another body reaches
the create operation. -/
theorem bookCreate_sentinel_hook_witness :
    postBooksAdd { books := [], users := [] } 1
        { name := some "book1", createdBy := some 1, extra := [] } =
      .rejected "invalid request" ∧
    postBooksAdd { books := [], users := [] } 1
        { name := some "book2", createdBy := some 1, extra := [] } =
      .created (addBook { books := [], users := [] } 1
        { name := some "book2", createdBy := some 1, extra := [] }) := by
  constructor
  · exact (bookCreate_sentinel_hook { books := [], users := [] } 1
      { name := some "book1", createdBy := some 1, extra := [] }).1 rfl
  · exact (bookCreate_sentinel_hook { books := [], users := [] } 1
      { name := some "book2", createdBy := some 1, extra := [] }).2 (by decide)

/-- A concrete store for the C6 counterexample: a single book whose name
is the digit string 2 but whose id is 1, so the id 2 is absent. -/
def exStoreC6 : Store :=
  { books := [{ id := 1, name := "2", createdBy := 5 }], users := [] }

/-- C6 counterexample: with the id 2 absent from the store, deleteBook
answers 200 with count 0, not the 404 the claim states; and the read-one
path, which looks up by name, even answers 200 here because a book is
named by that digit string. -/
theorem delete_missing_id_counterexample :
    (exStoreC6.books.all fun b => b.id != 2) = true ∧
    (deleteBook exStoreC6 2).1 = (200, 0) ∧
    (deleteBook exStoreC6 2).1.1 ≠ 404 ∧
    updateOnlyOneBook exStoreC6 "2" ≠ .notFound := by
  decide

/-- C6 amended: for every id absent from the store, and a path parameter
matching no book name (the read-one path looks up by name), update and
read-one answer 404, delete answers 200 with deleted count 0, none
crashes, and the store is unchanged by all three. -/
theorem missing_id_outcomes (store : Store) (bid : Nat) (pname : String)
    (u : UpdateData)
    (hid : ∀ b ∈ store.books, b.id ≠ bid)
    (hname : ∀ b ∈ store.books, b.name ≠ pname) :
    updateBook store bid u = (.notFound, store) ∧
    updateOnlyOneBook store pname = .notFound ∧
    deleteBook store bid = ((200, 0), store) := by
  refine ⟨?_, ?_, ?_⟩
  · simp [updateBook, updateById_not_mem store.books bid u hid]
  · unfold updateOnlyOneBook
    rw [List.find?_eq_none.mpr]
    intro x hx
    simpa using hname x hx
  · simp [deleteBook, deleteOneBook_not_mem store.books bid hid]

/-- Witness for C6 amended at the concrete store with the absent id 2
and the unmatched name string. -/
theorem missing_id_outcomes_witness :
    updateBook { books := [{ id := 1, name := "b", createdBy := 5 }], users := [] }
        2 { name := none, createdBy := none } =
      (.notFound, { books := [{ id := 1, name := "b", createdBy := 5 }], users := [] }) ∧
    updateOnlyOneBook
        { books := [{ id := 1, name := "b", createdBy := 5 }], users := [] } "c" =
      .notFound ∧
    deleteBook { books := [{ id := 1, name := "b", createdBy := 5 }], users := [] } 2 =
      ((200, 0), { books := [{ id := 1, name := "b", createdBy := 5 }], users := [] }) :=
  missing_id_outcomes
    { books := [{ id := 1, name := "b", createdBy := 5 }], users := [] }
    2 "c" { name := none, createdBy := none } (by decide) (by decide)

/-- C7: delete-by-id is idempotent and never errors on a missing id: on a
store whose book ids are pairwise distinct, deleting a present book
answers 200 with count 1, and repeating the same delete on the resulting
store answers 200 with count 0 — a no-op success, not an error. -/
theorem deleteBook_idempotent (store : Store) (b : Book)
    (hmem : b ∈ store.books) (hnodup : (store.books.map Book.id).Nodup) :
    (deleteBook store b.id).1 = (200, 1) ∧
    (deleteBook (deleteBook store b.id).2 b.id).1 = (200, 0) := by
  constructor
  · simp [deleteBook, deleteOneBook_mem store.books b.id ⟨b, hmem, rfl⟩]
  · have hgone := deleteOneBook_removes store.books b.id hnodup
    have hnone :
        deleteOneBook (deleteOneBook store.books b.id).2 b.id =
          (0, (deleteOneBook store.books b.id).2) :=
      deleteOneBook_not_mem _ _ hgone
    simp [deleteBook, hnone]

/-- Witness for C7 on a concrete two-book store. -/
theorem deleteBook_idempotent_witness :
    (deleteBook { books := [{ id := 1, name := "a", createdBy := 5 },
                            { id := 2, name := "b", createdBy := 5 }], users := [] }
        1).1 = (200, 1) ∧
    (deleteBook
        (deleteBook { books := [{ id := 1, name := "a", createdBy := 5 },
                                { id := 2, name := "b", createdBy := 5 }], users := [] }
          1).2 1).1 = (200, 0) := by
  have h := deleteBook_idempotent
    { books := [{ id := 1, name := "a", createdBy := 5 },
                { id := 2, name := "b", createdBy := 5 }], users := [] }
    { id := 1, name := "a", createdBy := 5 } (by decide) (by decide)
  exact h

/-- C8: the read-one path reads by name, not id: it answers 404 exactly
when no book carries the path parameter as its name, and otherwise
answers the first book whose name matches, with the createdBy relation
populated to the referenced user's id and name and the book's own name
excluded from the answered shape. -/
theorem readOne_by_name (store : Store) (param : String) :
    (updateOnlyOneBook store param = .notFound ↔
      ∀ b ∈ store.books, b.name ≠ param) ∧
    (∀ l1 b l2, store.books = l1 ++ b :: l2 → b.name = param →
      (∀ x ∈ l1, x.name ≠ param) →
      updateOnlyOneBook store param =
        .ok { id := b.id
              createdBy := (store.users.find? (fun u => u.id = b.createdBy)).map
                fun u => { id := u.id, name := u.name } }) := by
  constructor
  · unfold updateOnlyOneBook
    cases hf : store.books.find? (fun b => b.name = param) with
    | none =>
      simp only []
      constructor
      · intro _ b hb
        have := List.find?_eq_none.mp hf b hb
        simpa using this
      · intro _; trivial
    | some b =>
      simp only []
      constructor
      · intro h; cases h
      · intro hall
        have hmem := List.find?_some hf
        have hbm := List.mem_of_find?_eq_some hf
        exact absurd (of_decide_eq_true hmem) (hall b hbm)
  · intro l1 b l2 hdec hbname hfront
    unfold updateOnlyOneBook
    rw [hdec, find?_first _ l1 l2 b (by simp [hbname])
      (fun x hx => by simpa using hfront x hx)]

/-- Witness for C8: on a concrete store the second book is shadowed by
the first matching one, the creator is populated, and the answered shape
carries no name. -/
theorem readOne_by_name_witness :
    updateOnlyOneBook
        { books := [{ id := 1, name := "n", createdBy := 9 }]
          users := [{ id := 9, name := "ann", username := "an", email := "a at x" }] }
        "n" =
      .ok { id := 1, createdBy := some { id := 9, name := "ann" } } := by
  have h := (readOne_by_name
    { books := [{ id := 1, name := "n", createdBy := 9 }]
      users := [{ id := 9, name := "ann", username := "an", email := "a at x" }] }
    "n").2 [] { id := 1, name := "n", createdBy := 9 } [] rfl rfl
    (by intro x hx; cases hx)
  simpa using h

/-- C10: create-book uses only the name and createdBy fields of the
body: two bodies agreeing on them produce identical outcomes whatever
other fields they carry, and on a valid body the inserted and returned
document is exactly the one built from name, createdBy and the
server-assigned id. -/
theorem addBook_frame (store : Store) (nid : Nat) (b1 b2 : ReqBody)
    (hn : b1.name = b2.name) (hc : b1.createdBy = b2.createdBy) :
    addBook store nid b1 = addBook store nid b2 ∧
    (∀ n c, b1.name = some n → b1.createdBy = some c →
      addBook store nid b1 =
        (.ok { id := nid, name := n, createdBy := c },
         { store with
            books := store.books ++ [{ id := nid, name := n, createdBy := c }] })) := by
  constructor
  · unfold addBook
    rw [hn, hc]
  · intro n c hbn hbc
    simp [addBook, hbn, hbc]

/-- Witness for C10: a body with an extra payload field and one without
produce the same outcome, which is the document built from name and
createdBy alone. -/
theorem addBook_frame_witness :
    addBook { books := [], users := [] } 3
        { name := some "m", createdBy := some 9, extra := [("price", "7")] } =
      addBook { books := [], users := [] } 3
        { name := some "m", createdBy := some 9, extra := [] } ∧
    addBook { books := [], users := [] } 3
        { name := some "m", createdBy := some 9, extra := [("price", "7")] } =
      (.ok { id := 3, name := "m", createdBy := 9 },
       { books := [{ id := 3, name := "m", createdBy := 9 }], users := [] }) := by
  have h := addBook_frame { books := [], users := [] } 3
    { name := some "m", createdBy := some 9, extra := [("price", "7")] }
    { name := some "m", createdBy := some 9, extra := [] } rfl rfl
  exact ⟨h.1, h.2 "m" 9 rfl rfl⟩

/-- C9: on the three given documents, grouping by price with summed
quantity and count yields exactly the price-10 group with total 13 and
count 2 and the price-20 group with total 2 and count 1, and sorting by
totalQuantity descending then limiting to 1 yields only the price-10
group. -/
theorem aggregation_group_sort_limit :
    groupByPrice sampleDocs =
      [{ key := 10, totalQuantity := 13, count := 2 },
       { key := 20, totalQuantity := 2, count := 1 }] ∧
    limitStage 1 (sortDescByTotal (groupByPrice sampleDocs)) =
      [{ key := 10, totalQuantity := 13, count := 2 }] := by
  decide
